import Mathlib

/-!
Verification of the RoadWatch file-watching core (`src/roadwatch/watch.py`).

The source is embedded shallowly:

* `EventType`, `FileEvent`, `FileSnapshot` mirror the Python dataclasses.
  `FileEvent.timestamp` (wall-clock `datetime.now()`) is omitted: no claim
  refers to it and the diff engine never inspects it.
* A `SnapshotSet` (the Python `Dict[Path, FileSnapshot]`) is an association
  list `List (String × FileSnapshot)`; Python dict keys are unique, which
  appears as `Nodup` hypotheses where a theorem needs them.
* The filesystem seen by one scan is modelled as the listing of regular
  files under the root together with the `FileSnapshot` data that
  `FileSnapshot.from_path` captures for each; `FileWatcher._scan` then
  filters this listing through the include/exclude policy.
* `pathlib.Path.match` with a single-component relative pattern compares
  the pattern against the final path component using fnmatch syntax; the
  model implements the `*` / `?` / literal fragment of fnmatch (with an
  explicit fuel argument so the definition is structurally recursive),
  which covers every pattern the specification's policy statements use.
* Python floats (`mtime`) only ever undergo `!=` comparison in the diff
  engine, so `mtime` is modelled as `Int`.
* Handler callbacks are effectful and may raise; a handler is modelled as
  a state transformer returning the new state plus `Option String`
  (`some msg` models a raised exception, which `_emit` catches and logs;
  the Lean dispatch function is total, mirroring that no exception escapes
  `_emit`).
-/

namespace RoadWatch

/-- `EventType` from the source: `created | modified | deleted | moved`. -/
inductive EventType where
  | created
  | modified
  | deleted
  | moved
deriving DecidableEq, Repr

/-- `FileEvent` dataclass: event type, path, optional old path (only for
`moved`), directory flag.  The wall-clock `timestamp` field is omitted. -/
structure FileEvent where
  type : EventType
  path : String
  oldPath : Option String := none
  isDirectory : Bool := false
deriving DecidableEq, Repr

/-- `FileSnapshot` dataclass: path, size, mtime, content hash (`""` is the
"not computed" sentinel), existence flag. -/
structure FileSnapshot where
  path : String
  size : Nat
  mtime : Int
  hash : String := ""
  fileExists : Bool := true
deriving DecidableEq, Repr

/-- A `SnapshotSet`: the Python `Dict[Path, FileSnapshot]` as an
association list keyed by path. -/
abbrev SnapshotSet := List (String × FileSnapshot)

/-- fnmatch-style matching of a pattern against a name, supporting `*`
(any run of characters), `?` (any single character) and literal
characters.  The fuel argument makes the recursion structural; every call
shrinks `pattern.length + name.length`, so `fnmatch` supplies enough fuel
for the answer never to depend on it. -/
def fnmatchFuel : Nat → List Char → List Char → Bool
  | 0, _, _ => false
  | _ + 1, [], [] => true
  | _ + 1, [], _ :: _ => false
  | fuel + 1, p :: ps, [] =>
    if p = '*' then fnmatchFuel fuel ps [] else false
  | fuel + 1, p :: ps, c :: cs =>
    if p = '*' then fnmatchFuel fuel ps (c :: cs) || fnmatchFuel fuel (p :: ps) cs
    else if p = '?' then fnmatchFuel fuel ps cs
    else p = c && fnmatchFuel fuel ps cs

/-- fnmatch on strings. -/
def fnmatch (pattern name : String) : Bool :=
  fnmatchFuel (pattern.length + name.length + 1) pattern.toList name.toList

/-- Final component of a path string: the characters after the last
separator. -/
def baseName (p : String) : String :=
  String.mk ((p.toList.reverse.takeWhile (fun c => decide (c ≠ '/'))).reverse)

/-- `pathlib.Path.match` restricted to single-component relative patterns:
the pattern is matched against the final path component. -/
def pathMatch (p pattern : String) : Bool :=
  fnmatch pattern (baseName p)

/-- `FileWatcher._matches`: every ignore pattern is tried first (early
`return False`), then the include patterns (early `return True`), and the
fall-through returns `False`. -/
def matchesPolicy (patterns ignorePatterns : List String) (p : String) : Bool :=
  if ignorePatterns.any (fun pattern => pathMatch p pattern) then false
  else patterns.any (fun pattern => pathMatch p pattern)

/-- `FileWatcher._scan` over a directory root: the traversal yields the
regular files in `fs` (with the snapshot data `from_path` captures), and
only entries passing `_matches` are kept. -/
def scan (patterns ignorePatterns : List String) (fs : SnapshotSet) : SnapshotSet :=
  fs.filter (fun e => matchesPolicy patterns ignorePatterns e.1)

/-- The body of `_check`'s loop over `curr_paths - prev_paths`: one
CREATED event per path present in the current scan but not the previous
one. -/
def createdEvents (prev curr : SnapshotSet) : List FileEvent :=
  ((curr.map Prod.fst).filter (fun p => decide (p ∉ prev.map Prod.fst))).map
    (fun p => { type := .created, path := p })

/-- The body of `_check`'s loop over `prev_paths - curr_paths`: one
DELETED event per path present in the previous scan but not the current
one. -/
def deletedEvents (prev curr : SnapshotSet) : List FileEvent :=
  ((prev.map Prod.fst).filter (fun p => decide (p ∉ curr.map Prod.fst))).map
    (fun p => { type := .deleted, path := p })

/-- The per-path comparison inside `_check` for a path present in both
snapshots: in hashing mode the digests are compared (`prev.hash !=
curr.hash`), otherwise mtime/size are compared; `some event` models
appending a MODIFIED event, `none` models appending nothing. -/
def modifiedAt (useHash : Bool) (prevSnap currSnap : FileSnapshot) (p : String) :
    Option FileEvent :=
  if useHash then
    if prevSnap.hash ≠ currSnap.hash then some { type := .modified, path := p } else none
  else
    if prevSnap.mtime ≠ currSnap.mtime ∨ prevSnap.size ≠ currSnap.size then
      some { type := .modified, path := p }
    else none

/-- The body of `_check`'s loop over `prev_paths & curr_paths`: the
snapshots stored for the path in each dict are compared with
`modifiedAt`. -/
def modifiedEvents (useHash : Bool) (prev curr : SnapshotSet) : List FileEvent :=
  ((prev.map Prod.fst).filter (fun p => decide (p ∈ curr.map Prod.fst))).filterMap
    (fun p =>
      match prev.lookup p, curr.lookup p with
      | some a, some b => modifiedAt useHash a b p
      | _, _ => none)

/-- `FileWatcher._check` as a pure diff of two snapshot sets: the three
loops append created events, then deleted events, then modified events to
one list.  Python iterates the key sets in unspecified order; the model
fixes key-list order, which the specification leaves unconstrained within
each group. -/
def check (useHash : Bool) (prev curr : SnapshotSet) : List FileEvent :=
  createdEvents prev curr ++ deletedEvents prev curr ++ modifiedEvents useHash prev curr

/-- `FileWatcher` state: configuration fields plus the stored previous
snapshot set, the running flag, and a count of polling threads spawned so
far (each `threading.Thread(target=self._poll)` started by `start()`). -/
structure FileWatcher where
  patterns : List String
  ignorePatterns : List String
  useHash : Bool
  snapshots : SnapshotSet := []
  running : Bool := false
  threadsSpawned : Nat := 0
deriving DecidableEq

/-- `FileWatcher.__init__`: `patterns or ["*"]` replaces both `None` and
the empty list (both falsy) by `["*"]`; `ignore_patterns or []` replaces
both `None` and the empty list by `[]`. -/
def mkFileWatcher (patterns ignorePatterns : Option (List String))
    (useHash : Bool := false) : FileWatcher :=
  { patterns :=
      match patterns with
      | none => ["*"]
      | some ps => if ps.isEmpty then ["*"] else ps
    ignorePatterns :=
      match ignorePatterns with
      | none => []
      | some qs => if qs.isEmpty then [] else qs
    useHash := useHash }

/-- `FileWatcher.start`: a no-op when already running; otherwise sets the
running flag and spawns a fresh polling thread (the thread body `_poll`
re-baselines and then loops; the spawn is recorded in
`threadsSpawned`). -/
def FileWatcher.start (w : FileWatcher) : FileWatcher :=
  if w.running then w
  else { w with running := true, threadsSpawned := w.threadsSpawned + 1 }

/-- `FileWatcher.stop`: clears the running flag (the bounded join has no
further effect on watcher state). -/
def FileWatcher.stop (w : FileWatcher) : FileWatcher :=
  { w with running := false }

/-- `FileWatcher.poll_once` against the filesystem listing `fs`:
`if not self._snapshots:` (true exactly when the stored dict is empty)
scan, store, and return no events; otherwise run `_check`, which scans,
diffs against the stored snapshots, stores the new scan, and returns the
events. -/
def FileWatcher.pollOnce (w : FileWatcher) (fs : SnapshotSet) :
    List FileEvent × FileWatcher :=
  if w.snapshots.isEmpty then
    ([], { w with snapshots := scan w.patterns w.ignorePatterns fs })
  else
    let current := scan w.patterns w.ignorePatterns fs
    (check w.useHash w.snapshots current, { w with snapshots := current })

/-- An observer callback: receives the event and the ambient state, and
returns the updated state together with `none` (normal return) or
`some msg` (the callback raised; `_emit` catches the exception). -/
abbrev Handler (σ : Type) := FileEvent → σ → σ × Option String

/-- `FileWatcher._emit` over one event-type's handler list: each handler
is invoked in order inside `try/except`; a raised exception is caught
(logged) and the loop continues with the state the handler left behind.
Returns the final state and the per-handler outcome trace. -/
def emitRun {σ : Type} (hs : List (Handler σ)) (e : FileEvent) (s : σ) :
    σ × List (Option String) :=
  match hs with
  | [] => (s, [])
  | h :: rest =>
    let r := h e s
    let next := emitRun rest e r.1
    (next.1, r.2 :: next.2)

/-- The handler registry `_handlers : Dict[EventType, List[Callable]]`. -/
abbrev Handlers (σ : Type) := EventType → List (Handler σ)

/-- `FileWatcher.on`: appends the handler to the list registered for the
given event type. -/
def onHandler {σ : Type} (m : Handlers σ) (t : EventType) (h : Handler σ) :
    Handlers σ :=
  fun u => if u = t then m u ++ [h] else m u

end RoadWatch

namespace RoadWatch

/-! ### Helper lemmas -/

lemma modifiedAt_eq_some {u : Bool} {a b : FileSnapshot} {p : String} {e : FileEvent}
    (h : modifiedAt u a b p = some e) : e = { type := .modified, path := p } := by
  unfold modifiedAt at h
  split_ifs at h <;> simp_all

lemma type_of_mem_createdEvents {prev curr : SnapshotSet} {e : FileEvent}
    (h : e ∈ createdEvents prev curr) : e.type = .created := by
  unfold createdEvents at h
  obtain ⟨p, -, rfl⟩ := List.mem_map.1 h
  rfl

lemma type_of_mem_deletedEvents {prev curr : SnapshotSet} {e : FileEvent}
    (h : e ∈ deletedEvents prev curr) : e.type = .deleted := by
  unfold deletedEvents at h
  obtain ⟨p, -, rfl⟩ := List.mem_map.1 h
  rfl

lemma type_of_mem_modifiedEvents {u : Bool} {prev curr : SnapshotSet} {e : FileEvent}
    (h : e ∈ modifiedEvents u prev curr) : e.type = .modified := by
  unfold modifiedEvents at h
  obtain ⟨p, -, hf⟩ := List.mem_filterMap.1 h
  revert hf
  cases prev.lookup p <;> cases curr.lookup p <;> intro hf <;> try simp_all
  rw [modifiedAt_eq_some hf]

lemma mem_keys_of_lookup {l : SnapshotSet} {p : String} {s : FileSnapshot}
    (h : l.lookup p = some s) : p ∈ l.map Prod.fst := by
  induction l with
  | nil => simp [List.lookup] at h
  | cons e t ih =>
    obtain ⟨k, v⟩ := e
    by_cases hk : p = k
    · simp [hk]
    · have hb : (p == k) = false := beq_eq_false_iff_ne.mpr hk
      simp only [List.lookup, hb] at h
      simp [ih h]

/-! ### C7: diffing a snapshot set against itself yields no events -/

/-- C7: for every SnapshotSet `S` and either comparison mode, diffing `S`
against itself produces the empty event list. -/
theorem check_self_eq_nil (u : Bool) (S : SnapshotSet) : check u S S = [] := by
  have h1 : (S.map Prod.fst).filter (fun p => decide (p ∉ S.map Prod.fst)) = [] := by
    rw [List.filter_eq_nil_iff]
    intro p hp
    simp [hp]
  have h2 : modifiedEvents u S S = [] := by
    unfold modifiedEvents
    rw [List.filterMap_eq_nil_iff]
    intro p _
    cases h : S.lookup p <;> simp [h, modifiedAt]
  simp [check, createdEvents, deletedEvents, h1, h2]

/-- C7 witness: the theorem applied at a concrete snapshot set. -/
theorem check_self_eq_nil_witness :
    check true [("a.txt", { path := "a.txt", size := 5, mtime := 10 })] [("a.txt", { path := "a.txt", size := 5, mtime := 10 })] = [] :=
  check_self_eq_nil true [("a.txt", { path := "a.txt", size := 5, mtime := 10 })]


/-! ### C5: events are grouped created-first, then deleted, then modified -/

/-- C5: for every pair of snapshot sets and either mode, the event list
returned by the diff is its created events, then its deleted events, then
its modified events — the grouping order of `_check`'s three loops. -/
theorem check_grouped (u : Bool) (prev curr : SnapshotSet) :
    check u prev curr =
      (check u prev curr).filter (fun e => decide (e.type = .created)) ++
      (check u prev curr).filter (fun e => decide (e.type = .deleted)) ++
      (check u prev curr).filter (fun e => decide (e.type = .modified)) := by
  have fcc : (createdEvents prev curr).filter (fun e => decide (e.type = .created)) =
      createdEvents prev curr :=
    List.filter_eq_self.mpr (fun e he => by simp [type_of_mem_createdEvents he])
  have fcd : (createdEvents prev curr).filter (fun e => decide (e.type = .deleted)) = [] :=
    List.filter_eq_nil_iff.mpr (fun e he => by simp [type_of_mem_createdEvents he])
  have fcm : (createdEvents prev curr).filter (fun e => decide (e.type = .modified)) = [] :=
    List.filter_eq_nil_iff.mpr (fun e he => by simp [type_of_mem_createdEvents he])
  have fdc : (deletedEvents prev curr).filter (fun e => decide (e.type = .created)) = [] :=
    List.filter_eq_nil_iff.mpr (fun e he => by simp [type_of_mem_deletedEvents he])
  have fdd : (deletedEvents prev curr).filter (fun e => decide (e.type = .deleted)) =
      deletedEvents prev curr :=
    List.filter_eq_self.mpr (fun e he => by simp [type_of_mem_deletedEvents he])
  have fdm : (deletedEvents prev curr).filter (fun e => decide (e.type = .modified)) = [] :=
    List.filter_eq_nil_iff.mpr (fun e he => by simp [type_of_mem_deletedEvents he])
  have fmc : (modifiedEvents u prev curr).filter (fun e => decide (e.type = .created)) = [] :=
    List.filter_eq_nil_iff.mpr (fun e he => by simp [type_of_mem_modifiedEvents he])
  have fmd : (modifiedEvents u prev curr).filter (fun e => decide (e.type = .deleted)) = [] :=
    List.filter_eq_nil_iff.mpr (fun e he => by simp [type_of_mem_modifiedEvents he])
  have fmm : (modifiedEvents u prev curr).filter (fun e => decide (e.type = .modified)) =
      modifiedEvents u prev curr :=
    List.filter_eq_self.mpr (fun e he => by simp [type_of_mem_modifiedEvents he])
  conv_rhs => rw [check]
  rw [List.filter_append, List.filter_append, List.filter_append, List.filter_append,
    List.filter_append, List.filter_append, fcc, fcd, fcm, fdc, fdd, fdm, fmc, fmd, fmm]
  simp [check]

/-! ### C3: a stopped watcher can in fact be restarted by `start()` -/

/-- C3 counterexample: on a concrete fresh watcher, after `start()` then a
completed `stop()`, a subsequent `start()` does resume: the session is
`running` again and a second polling thread has been spawned — refuting
the claim that no stopped session ever transitions back to running. -/
theorem start_after_stop_counterexample :
    ((((mkFileWatcher none none).start).stop).start).running = true ∧
    ((((mkFileWatcher none none).start).stop).start).threadsSpawned = 2 := by
  decide

/-- C3 amended: `start()` on any stopped session (in particular after
`stop()`) sets the running flag again and spawns a fresh polling thread;
a new session object is not required to watch again. -/
theorem start_after_stop_restarts (w : FileWatcher) :
    ((w.stop).start).running = true ∧
    ((w.stop).start).threadsSpawned = w.threadsSpawned + 1 := by
  simp [FileWatcher.start, FileWatcher.stop]

/-! ### C10: empty include/ignore lists are coerced to the defaults -/

/-- C10: constructing a watcher with `patterns=[]` yields the very same
watcher as the default `patterns=None` — the empty include list becomes
`["*"]`, so a watcher including no paths cannot be configured this way —
and `ignore_patterns=[]` likewise coincides with the default (no
excludes). -/
theorem mkFileWatcher_empty_lists (ps ig : Option (List String)) (u : Bool) :
    mkFileWatcher (some []) ig u = mkFileWatcher none ig u ∧
    (mkFileWatcher (some []) ig u).patterns = ["*"] ∧
    mkFileWatcher ps (some []) u = mkFileWatcher ps none u ∧
    (mkFileWatcher ps (some []) u).ignorePatterns = [] := by
  simp [mkFileWatcher]


/-! ### Membership of MODIFIED events in the diff output -/

lemma modified_mem_check_iff {u : Bool} {prev curr : SnapshotSet} {p : String}
    {a b : FileSnapshot} (ha : prev.lookup p = some a) (hb : curr.lookup p = some b) :
    (({ type := .modified, path := p } : FileEvent) ∈ check u prev curr) ↔
      modifiedAt u a b p = some { type := .modified, path := p } := by
  constructor
  · intro hmem
    rcases List.mem_append.1 hmem with hcd | hm
    · rcases List.mem_append.1 hcd with hc | hd
      · have := type_of_mem_createdEvents hc
        simp at this
      · have := type_of_mem_deletedEvents hd
        simp at this
    unfold modifiedEvents at hm
    obtain ⟨q, -, hf⟩ := List.mem_filterMap.1 hm
    cases hqa : prev.lookup q with
    | none => rw [hqa] at hf; simp at hf
    | some a2 =>
      cases hqb : curr.lookup q with
      | none => rw [hqa, hqb] at hf; simp at hf
      | some b2 =>
        rw [hqa, hqb] at hf
        have hev := modifiedAt_eq_some hf
        have hqp : p = q := congrArg FileEvent.path hev
        subst hqp
        rw [hqa] at ha
        rw [hqb] at hb
        cases ha
        cases hb
        exact hf
  · intro hsome
    have hp1 : p ∈ prev.map Prod.fst := mem_keys_of_lookup ha
    have hp2 : p ∈ curr.map Prod.fst := mem_keys_of_lookup hb
    refine List.mem_append.2 (Or.inr ?_)
    unfold modifiedEvents
    refine List.mem_filterMap.2 ⟨p, List.mem_filter.2 ⟨hp1, decide_eq_true hp2⟩, ?_⟩
    rw [ha, hb]
    exact hsome

/-! ### C2: hashing mode compares digests unconditionally, no fallback -/

/-- C2 counterexample: with hashing enabled and both digests equal to the
empty "not computed" sentinel while the mtimes differ, the diff returns no
event — whereas the claimed fallback to metadata comparison would return
the MODIFIED event that metadata mode (second conjunct) does return on
the same snapshots.  So the diff does not fall back to metadata when a
digest is empty. -/
theorem hash_empty_no_fallback_counterexample :
    check true
      [("a.txt", { path := "a.txt", size := 5, mtime := 1, hash := "" })]
      [("a.txt", { path := "a.txt", size := 5, mtime := 2, hash := "" })] = [] ∧
    check false
      [("a.txt", { path := "a.txt", size := 5, mtime := 1, hash := "" })]
      [("a.txt", { path := "a.txt", size := 5, mtime := 2, hash := "" })] =
      [{ type := .modified, path := "a.txt" }] := by
  decide

/-- C2 amended: in hashing mode, for a path present in both snapshot sets
the digests are compared unconditionally as strings — a MODIFIED event is
produced iff the stored digests differ.  Two empty digests are therefore
never classified as different, but when a digest is the empty sentinel no
fallback to metadata comparison occurs. -/
theorem hash_mode_modified_iff (prev curr : SnapshotSet) (p : String)
    (a b : FileSnapshot) (ha : prev.lookup p = some a) (hb : curr.lookup p = some b) :
    (({ type := .modified, path := p } : FileEvent) ∈ check true prev curr) ↔
      a.hash ≠ b.hash := by
  rw [modified_mem_check_iff ha hb]
  unfold modifiedAt
  by_cases hh : a.hash = b.hash <;> simp [hh]

def snapC2a : FileSnapshot := { path := "a.txt", size := 5, mtime := 1, hash := "d41" }

def snapC2b : FileSnapshot := { path := "a.txt", size := 5, mtime := 1, hash := "9e1" }

def prevC2W : SnapshotSet := [("a.txt", snapC2a)]

def currC2W : SnapshotSet := [("a.txt", snapC2b)]

/-- C2 witness: the amended theorem applied at concrete snapshots with
differing digests. -/
theorem hash_mode_modified_iff_witness :
    prevC2W.lookup "a.txt" = some snapC2a ∧ currC2W.lookup "a.txt" = some snapC2b ∧
    (({ type := .modified, path := "a.txt" } : FileEvent) ∈ check true prevC2W currC2W) :=
  ⟨by decide, by decide,
   (hash_mode_modified_iff prevC2W currC2W "a.txt" snapC2a snapC2b (by decide)
     (by decide)).mpr (by decide)⟩

/-! ### C6: metadata mode fires exactly on mtime or size differences -/

/-- C6: with content hashing disabled, for a path present in both
snapshot sets a MODIFIED event is produced iff the stored mtime differs
or the stored size differs; equal mtime and equal size produce no event
(even if the file bytes were rewritten with equivalent content, which
leaves these stored fields equal). -/
theorem metadata_mode_modified_iff (prev curr : SnapshotSet) (p : String)
    (a b : FileSnapshot) (ha : prev.lookup p = some a) (hb : curr.lookup p = some b) :
    (({ type := .modified, path := p } : FileEvent) ∈ check false prev curr) ↔
      (a.mtime ≠ b.mtime ∨ a.size ≠ b.size) := by
  rw [modified_mem_check_iff ha hb]
  unfold modifiedAt
  by_cases hm : a.mtime = b.mtime <;> by_cases hs : a.size = b.size <;> simp [hm, hs]

def snapC6a : FileSnapshot := { path := "a.txt", size := 5, mtime := 1 }

def snapC6b : FileSnapshot := { path := "a.txt", size := 5, mtime := 2 }

def prevC6W : SnapshotSet := [("a.txt", snapC6a)]

def currC6W : SnapshotSet := [("a.txt", snapC6b)]

/-- C6 witness: the theorem applied at concrete snapshots whose mtimes
differ. -/
theorem metadata_mode_modified_iff_witness :
    prevC6W.lookup "a.txt" = some snapC6a ∧ currC6W.lookup "a.txt" = some snapC6b ∧
    (({ type := .modified, path := "a.txt" } : FileEvent) ∈ check false prevC6W currC6W) :=
  ⟨by decide, by decide,
   (metadata_mode_modified_iff prevC6W currC6W "a.txt" snapC6a snapC6b (by decide)
     (by decide)).mpr (by decide)⟩

end RoadWatch

namespace RoadWatch

/-! ### C4: exactly one CREATED / DELETED event per appearing/vanishing path -/

lemma count_map_event (t : EventType) (p : String) (l : List String) :
    (l.map (fun q => ({ type := t, path := q } : FileEvent))).count
      { type := t, path := p } = l.count p := by
  induction l with
  | nil => rfl
  | cons q l2 ih =>
    by_cases hqp : q = p
    · subst hqp
      simp [List.count_cons, ih]
    · have hne : ({ type := t, path := q } : FileEvent) ≠ { type := t, path := p } := by
        simp [hqp]
      simp [List.count_cons, ih, hqp, hne]

lemma count_zero_of_type_ne {l : List FileEvent} {e : FileEvent}
    (h : ∀ x ∈ l, x.type ≠ e.type) : l.count e = 0 :=
  List.count_eq_zero.mpr (fun hmem => (h e hmem) rfl)

/-- C4: when the key sets are duplicate-free (as Python dict keys are),
the diff contains the CREATED event for `p` exactly once when `p` is in
the current but not the previous key set (otherwise zero times), and the
DELETED event for `p` exactly once when `p` is in the previous but not
the current key set (otherwise zero times). -/
theorem created_deleted_counts (u : Bool) (prev curr : SnapshotSet) (p : String)
    (hprev : (prev.map Prod.fst).Nodup) (hcurr : (curr.map Prod.fst).Nodup) :
    (check u prev curr).count { type := .created, path := p } =
      (if p ∈ curr.map Prod.fst ∧ p ∉ prev.map Prod.fst then 1 else 0) ∧
    (check u prev curr).count { type := .deleted, path := p } =
      (if p ∈ prev.map Prod.fst ∧ p ∉ curr.map Prod.fst then 1 else 0) := by
  have hmc : (modifiedEvents u prev curr).count { type := .created, path := p } = 0 :=
    count_zero_of_type_ne (fun x hx => by rw [type_of_mem_modifiedEvents hx]; simp)
  have hmd : (modifiedEvents u prev curr).count { type := .deleted, path := p } = 0 :=
    count_zero_of_type_ne (fun x hx => by rw [type_of_mem_modifiedEvents hx]; simp)
  have hdc : (deletedEvents prev curr).count { type := .created, path := p } = 0 :=
    count_zero_of_type_ne (fun x hx => by rw [type_of_mem_deletedEvents hx]; simp)
  have hcd : (createdEvents prev curr).count { type := .deleted, path := p } = 0 :=
    count_zero_of_type_ne (fun x hx => by rw [type_of_mem_createdEvents hx]; simp)
  have hcre : (createdEvents prev curr).count { type := .created, path := p } =
      (if p ∈ curr.map Prod.fst ∧ p ∉ prev.map Prod.fst then 1 else 0) := by
    unfold createdEvents
    rw [count_map_event]
    by_cases h1 : p ∈ curr.map Prod.fst
    · by_cases h2 : p ∉ prev.map Prod.fst
      · rw [if_pos ⟨h1, h2⟩, List.count_filter (by simp [h2]),
          List.count_eq_one_of_mem hcurr h1]
      · rw [if_neg (by tauto)]
        apply List.count_eq_zero_of_not_mem
        intro hmem
        have hpred := (List.mem_filter.1 hmem).2
        simp only [decide_eq_true_eq] at hpred
        exact h2 hpred
    · rw [if_neg (by tauto)]
      apply List.count_eq_zero_of_not_mem
      intro hmem
      exact h1 (List.mem_filter.1 hmem).1
  have hdel : (deletedEvents prev curr).count { type := .deleted, path := p } =
      (if p ∈ prev.map Prod.fst ∧ p ∉ curr.map Prod.fst then 1 else 0) := by
    unfold deletedEvents
    rw [count_map_event]
    by_cases h1 : p ∈ prev.map Prod.fst
    · by_cases h2 : p ∉ curr.map Prod.fst
      · rw [if_pos ⟨h1, h2⟩, List.count_filter (by simp [h2]),
          List.count_eq_one_of_mem hprev h1]
      · rw [if_neg (by tauto)]
        apply List.count_eq_zero_of_not_mem
        intro hmem
        have hpred := (List.mem_filter.1 hmem).2
        simp only [decide_eq_true_eq] at hpred
        exact h2 hpred
    · rw [if_neg (by tauto)]
      apply List.count_eq_zero_of_not_mem
      intro hmem
      exact h1 (List.mem_filter.1 hmem).1
  constructor
  · rw [check, List.count_append, List.count_append, hcre, hdc, hmc]
    simp
  · rw [check, List.count_append, List.count_append, hcd, hdel, hmd]
    simp

def prevC4W : SnapshotSet := [("old.txt", { path := "old.txt", size := 1, mtime := 0 })]

def currC4W : SnapshotSet := [("new.txt", { path := "new.txt", size := 2, mtime := 5 })]

/-- C4 witness: the theorem applied at concrete duplicate-free snapshot
sets where `new.txt` appears and `old.txt` vanishes. -/
theorem created_deleted_counts_witness :
    (check false prevC4W currC4W).count { type := .created, path := "new.txt" } =
      (if "new.txt" ∈ currC4W.map Prod.fst ∧ "new.txt" ∉ prevC4W.map Prod.fst
        then 1 else 0) ∧
    (check false prevC4W currC4W).count { type := .deleted, path := "new.txt" } =
      (if "new.txt" ∈ prevC4W.map Prod.fst ∧ "new.txt" ∉ currC4W.map Prod.fst
        then 1 else 0) :=
  created_deleted_counts false prevC4W currC4W "new.txt" (by decide) (by decide)

end RoadWatch

namespace RoadWatch

/-! ### C1: `poll_once` re-baselines whenever the stored dict is empty -/

def fsC1 : SnapshotSet := [("a.txt", { path := "a.txt", size := 5, mtime := 10 })]

/-- C1, code evaluated at the failing input: on a watcher with default
options, the first `poll_once` against an empty directory returns no
events and stores the (empty) scan as the previous state; after `a.txt`
is created, the next `poll_once` again takes the `if not self._snapshots`
branch — the empty stored dict is indistinguishable from "no previous
state" — so it returns no events instead of reporting the creation,
although it does store the new snapshot set. -/
theorem pollOnce_empty_baseline_eval :
    ((mkFileWatcher none none).pollOnce []).1 = [] ∧
    ((mkFileWatcher none none).pollOnce []).2.snapshots = [] ∧
    (((mkFileWatcher none none).pollOnce []).2.pollOnce fsC1).1 = [] ∧
    (((mkFileWatcher none none).pollOnce []).2.pollOnce fsC1).2.snapshots = fsC1 := by
  decide

/-! ### C8: dispatch runs every registered callback, in order, isolated -/

lemma emitRun_append {σ : Type} (l1 l2 : List (Handler σ)) (e : FileEvent) (s : σ) :
    emitRun (l1 ++ l2) e s =
      ((emitRun l2 e (emitRun l1 e s).1).1,
       (emitRun l1 e s).2 ++ (emitRun l2 e (emitRun l1 e s).1).2) := by
  induction l1 generalizing s with
  | nil => simp [emitRun]
  | cons h t ih => simp [emitRun, ih]

lemma emitRun_length {σ : Type} (hs : List (Handler σ)) (e : FileEvent) (s : σ) :
    (emitRun hs e s).2.length = hs.length := by
  induction hs generalizing s with
  | nil => rfl
  | cons h t ih => simp [emitRun, ih]

/-- C8: registration appends to the per-type callback list (registration
order); dispatching an event invokes exactly one callback per registered
entry (the outcome trace has one slot per handler, in order); and for any
handler `h` registered between `hs1` and `hs2`, dispatch first runs all
of `hs1`, then `h` on the state `hs1` produced, then all of `hs2` on the
state `h` left behind — unconditionally, so a raised exception in `h`
(`(h e _).2 = some msg`) neither prevents the invocation of later
callbacks nor escapes the (total) dispatch function. -/
theorem dispatch_in_order_isolated {σ : Type} (m : Handlers σ) (t : EventType)
    (hreg h : Handler σ) (hs1 hs2 : List (Handler σ)) (e : FileEvent) (s : σ) :
    onHandler m t hreg t = m t ++ [hreg] ∧
    (emitRun (hs1 ++ h :: hs2) e s).2.length = hs1.length + 1 + hs2.length ∧
    emitRun (hs1 ++ h :: hs2) e s =
      ((emitRun hs2 e (h e (emitRun hs1 e s).1).1).1,
       (emitRun hs1 e s).2 ++
         (h e (emitRun hs1 e s).1).2 ::
           (emitRun hs2 e (h e (emitRun hs1 e s).1).1).2) := by
  refine ⟨by simp [onHandler], ?_, ?_⟩
  · rw [emitRun_length]
    simp
    omega
  · rw [emitRun_append]
    simp [emitRun]

/-! ### C9: the filter policy, and that scans only contain admitted paths -/

lemma scan_keys_match {ps igs : List String} {fs : SnapshotSet} {q : String}
    (hq : q ∈ (scan ps igs fs).map Prod.fst) : matchesPolicy ps igs q = true := by
  obtain ⟨entry, hentry, rfl⟩ := List.mem_map.1 hq
  exact (List.mem_filter.1 hentry).2

lemma path_of_mem_check {u : Bool} {prev curr : SnapshotSet} {e : FileEvent}
    (he : e ∈ check u prev curr) :
    e.path ∈ prev.map Prod.fst ∨ e.path ∈ curr.map Prod.fst := by
  rcases List.mem_append.1 he with hcd | hm
  · rcases List.mem_append.1 hcd with hc | hd
    · unfold createdEvents at hc
      obtain ⟨q, hq, rfl⟩ := List.mem_map.1 hc
      exact Or.inr (List.mem_filter.1 hq).1
    · unfold deletedEvents at hd
      obtain ⟨q, hq, rfl⟩ := List.mem_map.1 hd
      exact Or.inl (List.mem_filter.1 hq).1
  · unfold modifiedEvents at hm
    obtain ⟨q, hq, hf⟩ := List.mem_filterMap.1 hm
    have hql : e.path = q := by
      cases hqa : prev.lookup q <;> rw [hqa] at hf
      · simp at hf
      · cases hqb : curr.lookup q <;> rw [hqb] at hf
        · simp at hf
        · rw [modifiedAt_eq_some hf]
    rw [hql]
    exact Or.inl (List.mem_filter.1 hq).1

/-- C9: a candidate path is admitted by `_matches` iff it matches no
exclude pattern and matches at least one include pattern (exclusion takes
precedence); every path in a produced snapshot set satisfies the filter;
every path in an event produced by diffing two scans satisfies the
filter; and concretely, with include pattern `*.txt` a directory listing
holding `a.txt` and `b.log` scans to a snapshot set containing only
`a.txt`. -/
theorem filter_policy_admits_iff (patterns ignorePatterns : List String) (p : String)
    (fs : SnapshotSet) :
    (matchesPolicy patterns ignorePatterns p = true ↔
      ((∀ pat ∈ ignorePatterns, pathMatch p pat = false) ∧
       (∃ pat ∈ patterns, pathMatch p pat = true))) ∧
    (∀ q ∈ (scan patterns ignorePatterns fs).map Prod.fst,
      matchesPolicy patterns ignorePatterns q = true) ∧
    (∀ (u : Bool) (fs1 fs2 : SnapshotSet) (e : FileEvent),
      e ∈ check u (scan patterns ignorePatterns fs1) (scan patterns ignorePatterns fs2) →
      matchesPolicy patterns ignorePatterns e.path = true) ∧
    (∀ s1 s2 : FileSnapshot,
      (scan ["*.txt"] [] [("a.txt", s1), ("b.log", s2)]).map Prod.fst = ["a.txt"]) := by
  refine ⟨?_, ?_, ?_, ?_⟩
  · unfold matchesPolicy
    cases hig : ignorePatterns.any (fun pattern => pathMatch p pattern) with
    | false =>
      rw [if_neg (by simp [hig])]
      rw [List.any_eq_false] at hig
      simp only [List.any_eq_true]
      constructor
      · intro hsome
        exact ⟨fun pat hmem => by simpa using hig pat hmem, hsome⟩
      · intro hand
        exact hand.2
    | true =>
      rw [if_pos (by simp [hig])]
      obtain ⟨pat, hmem, hmatch⟩ := List.any_eq_true.1 hig
      constructor
      · intro hfalse
        cases hfalse
      · intro hand
        rw [hand.1 pat hmem] at hmatch
        cases hmatch
  · intro q hq
    exact scan_keys_match hq
  · intro u fs1 fs2 e he
    rcases path_of_mem_check he with h | h
    · exact scan_keys_match h
    · exact scan_keys_match h
  · intro s1 s2
    have h1 : matchesPolicy ["*.txt"] [] "a.txt" = true := by decide
    have h2 : matchesPolicy ["*.txt"] [] "b.log" = false := by decide
    simp [scan, List.filter, h1, h2]

end RoadWatch
